import Mathlib

/-!
Verification development for the NEA step-based agent orchestration engine.

The definitions below are a shallow embedding of the Python sources under
src/src/nea/.  Pure logic is translated function by function; stateful code
(the run loop mutating the step log, the wall clock, callback delivery) is
modelled by explicit state passing, with the wall clock abstracted to a
natural-number tick counter (each call of time.time advances it by one).
Console rendering is omitted: it is explicitly outside the specified core.

Two pieces of the repository are not translatable from src/ and are modelled
from the spec instead, as marked on their doc comments:
the error taxonomy (declared in the absent utils module) and the
memory-compaction output consumed by provide_final_answer (the function
write_inner_memory_from_logs in agents.py is syntactically invalid Python,
so the compacted message list is treated as opaque data).
-/

namespace NEA

/-- Runtime values flowing through the agent: Python str, int, the AgentText
wrapper from types.py, and None. -/
inductive Value where
  | str (s : String)
  | int (n : Int)
  | agentText (s : String)
  | vnone
  deriving Repr, DecidableEq

/-- Modelled from the spec: the error taxonomy of section 7 is declared in the
utils module, which is absent from src/.  All four kinds are siblings under
one base category, so one inductive with four constructors embeds it; the
orchestrator catch-all on the base class is membership in this type. -/
inductive AgentError where
  | parsing (msg : String)
  | execution (msg : String)
  | generation (msg : String)
  | maxIterations (msg : String)
  deriving Repr, DecidableEq

/-- Arguments of a tool call: a single positional string or a mapping of
string keys to values (agents.py, ToolCall.arguments). -/
inductive ToolArguments where
  | str (s : String)
  | dict (entries : List (String × Value))
  deriving Repr, DecidableEq

/-- ToolCall record from agents.py. -/
structure ToolCall where
  name : String
  arguments : ToolArguments
  id : String
  deriving Repr, DecidableEq

/-- ActionStep record from agents.py, with the wall clock abstracted to
natural-number ticks.  Fields not needed by any claim (agent_memory,
llm_output) are omitted. -/
structure ActionStep where
  tool_call : Option ToolCall := none
  start_time : Option Nat := none
  end_time : Option Nat := none
  iteration : Option Nat := none
  error : Option AgentError := none
  duration : Option Nat := none
  obs : Option String := none
  action_output : Value := Value.vnone
  deriving Repr, DecidableEq

/-- Tagged step variants of the log (agents.py classes SystemPromptStep,
TaskStep, PlanningStep, ActionStep). -/
inductive AgentStep where
  | system (system_prompt : String)
  | task (t : String)
  | planning (plan : String) (facts : String)
  | action (s : ActionStep)
  deriving Repr, DecidableEq

/-- Test whether a log entry is an ActionStep. -/
def AgentStep.isAction : AgentStep → Bool
  | AgentStep.action _ => true
  | _ => false

/-- Number of ActionStep entries in a log. -/
def countActions (logs : List AgentStep) : Nat :=
  (logs.filter AgentStep.isAction).length

/-- Embedding of handle_agent_output_types (types.py, lines 238 to 244) on
the modelled values: with no output_type given, the instance mapping wraps a
plain str into AgentText and returns every other value raw. -/
def handle_agent_output_types : Value → Value
  | Value.str s => Value.agentText s
  | v => v

/-- Embedding of MultiStepAgent.provide_final_answer (agents.py, lines 366
to 386).  The message list built from the compacted memory is opaque to the
result, so the embedding keeps only the model call: the try block wraps
exactly that call, and a failure is turned into the literal error string
rather than propagated. -/
def provide_final_answer (modelResult : Except String String) : String :=
  match modelResult with
  | Except.ok s => s
  | Except.error e => "Error in generating final LLM output:\n" ++ e

/-- Outcome of one call of self.step inside the run loop: a returned value
(none meaning not final), a raised error belonging to the AgentError
taxonomy, or a raised exception outside the taxonomy (carried as a
message). -/
inductive StepOutcome where
  | ret (v : Option Value)
  | agentErr (e : AgentError)
  | fatal (msg : String)
  deriving Repr, DecidableEq

/-- Mutable state threaded through a run: the step log, the list of steps
delivered to the step callbacks (in delivery order), and the clock. -/
structure RunState where
  logs : List AgentStep
  callbackLog : List ActionStep
  clock : Nat
  deriving Repr, DecidableEq

/-- Result of the while loop of direct_run: the final answer if one was
produced, the message of a propagating non-AgentError exception if one
aborted the loop, and the state after the loop. -/
structure LoopOut where
  finalAnswer : Option Value
  raised : Option String
  state : RunState
  deriving Repr, DecidableEq

/-- One iteration of the loop body of MultiStepAgent.direct_run (agents.py,
lines 566 to 593): build the step skeleton with iteration number and start
time, run the step, catch AgentError into the error field, then in the
finally block stamp end time and duration, append the step to the log,
deliver it to every callback, and increment the iteration counter.  The
planning interval is not configured in the modelled runs, so the planning
branch is a no-op. -/
def runIteration (outcome : StepOutcome) (i : Nat) (st : RunState) :
    ActionStep × RunState :=
  let startT := st.clock
  let endT := startT + 1
  let err : Option AgentError :=
    match outcome with
    | StepOutcome.agentErr e => some e
    | _ => none
  let step : ActionStep :=
    { iteration := some i, start_time := some startT, end_time := some endT,
      duration := some (endT - startT), error := err }
  (step,
   { logs := st.logs ++ [AgentStep.action step],
     callbackLog := st.callbackLog ++ [step],
     clock := endT + 1 })

/-- The while loop of MultiStepAgent.direct_run: while the final answer is
None and the iteration counter is below max_iterations, run one iteration.
The remaining fuel equals max_iterations minus the iteration counter, so the
loop condition is fuel reaching zero.  An exception outside the AgentError
taxonomy still passes through the finally block (the step is appended and
delivered) and then aborts the loop. -/
def directRunLoop (stepf : Nat → StepOutcome) :
    Nat → Nat → RunState → LoopOut
  | 0, _, st => { finalAnswer := none, raised := none, state := st }
  | fuel + 1, i, st =>
      match stepf i with
      | StepOutcome.ret v =>
          let st2 := (runIteration (StepOutcome.ret v) i st).2
          match v with
          | some fv => { finalAnswer := some fv, raised := none, state := st2 }
          | none => directRunLoop stepf fuel (i + 1) st2
      | StepOutcome.agentErr e =>
          directRunLoop stepf fuel (i + 1)
            (runIteration (StepOutcome.agentErr e) i st).2
      | StepOutcome.fatal msg =>
          { finalAnswer := none, raised := some msg,
            state := (runIteration (StepOutcome.fatal msg) i st).2 }

/-- Result of a whole run: either a returned value or a propagating
exception, together with the state left behind. -/
inductive RunOutcome where
  | done (v : Value) (st : RunState)
  | raised (msg : String) (st : RunState)
  deriving Repr, DecidableEq

/-- State component of a run outcome. -/
def RunOutcome.stateOf : RunOutcome → RunState
  | RunOutcome.done _ st => st
  | RunOutcome.raised _ st => st

/-- Embedding of MultiStepAgent.direct_run (agents.py, lines 560 to 606).
After the loop, if no final answer was produced and the iteration counter
reached max_iterations, an ActionStep carrying a MaxIterationsError is
appended, provide_final_answer synthesizes an answer, that answer is stored
as the action output of the appended step (duration zero), the step is
delivered to every callback, and the synthesized answer is returned through
handle_agent_output_types.  A non-AgentError exception of the loop
propagates. -/
def direct_run (stepf : Nat → StepOutcome) (maxIterations : Nat)
    (fallbackModel : Except String String) (st0 : RunState) : RunOutcome :=
  let lo := directRunLoop stepf maxIterations 0 st0
  match lo.raised with
  | some msg => RunOutcome.raised msg lo.state
  | none =>
      match lo.finalAnswer with
      | some v => RunOutcome.done (handle_agent_output_types v) lo.state
      | none =>
          let answer := provide_final_answer fallbackModel
          let finalStep : ActionStep :=
            { error := some (AgentError.maxIterations "Reached max iterations."),
              action_output := Value.str answer, duration := some 0 }
          let st' : RunState :=
            { logs := lo.state.logs ++ [AgentStep.action finalStep],
              callbackLog := lo.state.callbackLog ++ [finalStep],
              clock := lo.state.clock }
          RunOutcome.done (handle_agent_output_types (Value.str answer)) st'

/-- Answer component of a run outcome. -/
def RunOutcome.answerOf : RunOutcome → Option Value
  | RunOutcome.done v _ => some v
  | RunOutcome.raised _ _ => none

/-! ## The tool-calling agent variant (agents.py, ToolCallingAgent.step) -/

/-- Value of the local variable answer inside ToolCallingAgent.step: either a
value drawn from the arguments (or the state), or the whole argument mapping
when it carries no answer key. -/
inductive AnswerVal where
  | val (v : Value)
  | wholeArgs (d : List (String × Value))
  deriving Repr, DecidableEq

/-- Observable effects of one call of ToolCallingAgent.step (agents.py,
lines 750 to 801): the ToolCall recorded on the log entry, the value held by
the local variable final_answer after the final-answer branch (none when the
branch was not taken), and the return value of the function. -/
structure ToolStepResult where
  tool_call : ToolCall
  final_answer_local : Option AnswerVal
  returned : Option Value
  deriving Repr, DecidableEq

/-- Embedding of ToolCallingAgent.step, with the model call abstracted into
the structured triple it returns.  When the tool name is final_answer, the
answer is the answer field of a mapping argument (else the whole mapping, or
the positional string), and a string answer naming a state key is replaced
by the bound state value.  The function body then ends: no branch of the
source contains a return statement, so the Python function returns None on
every path, which the returned field records. -/
def toolcalling_step (modelCall : String × ToolArguments × String)
    (state : List (String × Value)) : ToolStepResult :=
  let tool_name := modelCall.1
  let tool_arguments := modelCall.2.1
  let tool_call_id := modelCall.2.2
  let tc : ToolCall :=
    { name := tool_name, arguments := tool_arguments, id := tool_call_id }
  if tool_name = "final_answer" then
    let answer : AnswerVal :=
      match tool_arguments with
      | ToolArguments.dict d =>
          match List.lookup "answer" d with
          | some v => AnswerVal.val v
          | none => AnswerVal.wholeArgs d
      | ToolArguments.str s => AnswerVal.val (Value.str s)
    let final_answer : AnswerVal :=
      match answer with
      | AnswerVal.val (Value.str s) =>
          match List.lookup s state with
          | some bound => AnswerVal.val bound
          | none => answer
      | _ => answer
    { tool_call := tc, final_answer_local := some final_answer, returned := none }
  else
    { tool_call := tc, final_answer_local := none, returned := none }

/-! ## The code-writing agent variant (agents.py, CodeAgent.step) -/

/-- Embedding of the Python str.split on the newline character, over the
character list of the code block. -/
def split_newline : List Char → List (List Char)
  | [] => [[]]
  | c :: rest =>
      let r := split_newline rest
      if c = '\n' then [] :: r
      else
        match r with
        | [] => [[c]]
        | l :: ls => (c :: l) :: ls

/-- Source lines of a code action, as in code_action.split on newline
(agents.py, line 976). -/
def code_lines (code : String) : List (List Char) := split_newline code.data

/-- The per-line test of agents.py line 977: the first twelve characters of
the line equal the name of the final-answer call. -/
def line_marks_final (line : List Char) : Bool :=
  line.take 12 == "final_answer".data

/-- Embedding of the flag computation of CodeAgent.step, lines 975 to 979:
the flag is initialized to True, and the scan over the lines sets it to True
on the first line passing the per-line test. -/
def is_final_answer_flag (code : String) : Bool :=
  (code_lines code).foldl
    (fun acc line => if line_marks_final line then true else acc) true

/-- Stated from the spec, for comparison with is_final_answer_flag: the
result is marked final exactly when some source line of the code block
begins with the final-answer call name. -/
def spec_final_answer_scan (code : String) : Bool :=
  (code_lines code).any line_marks_final

/-- Observable effects of one successful call of CodeAgent.step (agents.py,
lines 858 to 989): the synthetic ToolCall recorded on the log entry, the
action output, the final flag, and the return value (the output when the
flag holds, else None). -/
structure CodeStepResult where
  tool_call : ToolCall
  action_output : Value
  is_final : Bool
  returned : Option Value
  deriving Repr, DecidableEq

/-- Embedding of the success path of CodeAgent.step: the extracted code
block becomes a synthetic ToolCall named python_interpreter, the executor
output is stored as the action output, and the step returns the output when
the final flag holds and None otherwise. -/
def codeagent_step (code : String) (output : Value) (callId : String) :
    CodeStepResult :=
  let flag := is_final_answer_flag code
  { tool_call := { name := "python_interpreter",
                   arguments := ToolArguments.str code, id := callId },
    action_output := output,
    is_final := flag,
    returned := if flag then some output else none }

/-! ## Tool-call dispatch (agents.py, MultiStepAgent.execute_tool_call) -/

/-- Value-level effect of the substitution loop of execute_tool_call
(agents.py, lines 408 to 410): a string value equal to a key of the state
mapping is replaced by the bound state value, anything else is kept. -/
def subst_value (state : List (String × Value)) (v : Value) : Value :=
  match v with
  | Value.str s =>
      match List.lookup s state with
      | some bound => bound
      | none => Value.str s
  | _ => v

/-- Per-entry effect of the substitution loop: the key is kept and the
value is replaced when it is a string bound in the state. -/
def subst_entry (state : List (String × Value)) (kv : String × Value) :
    String × Value :=
  (kv.1, subst_value state kv.2)

/-- The substitution loop over the whole argument mapping. -/
def substitute_state_args (state : List (String × Value))
    (args : List (String × Value)) : List (String × Value) :=
  args.map (subst_entry state)

/-- Embedding of MultiStepAgent.execute_tool_call (agents.py, lines 388 to
417).  Tools are modelled as total functions from the arguments they receive
to their observation.  The first component of a successful result is the
arguments object as the caller sees it after the call: Python mutates the
passed mapping in place, so for mapping arguments this is the substituted
mapping, while a positional string is dispatched verbatim, with no state
substitution.  An unknown tool name raises an AgentExecutionError. -/
def execute_tool_call (tools : List (String × (ToolArguments → Value)))
    (state : List (String × Value)) (tool_name : String)
    (arguments : ToolArguments) : Except AgentError (ToolArguments × Value) :=
  match List.lookup tool_name tools with
  | none => Except.error (AgentError.execution ("Unknown tool " ++ tool_name))
  | some tool =>
      match arguments with
      | ToolArguments.str s =>
          Except.ok (ToolArguments.str s, tool (ToolArguments.str s))
      | ToolArguments.dict d =>
          let d' := substitute_state_args state d
          Except.ok (ToolArguments.dict d', tool (ToolArguments.dict d'))

/-! ## The run entry point (agents.py, MultiStepAgent.run) -/

/-- Rendering of a value for the additional-arguments banner; stands in for
the Python str conversion, whose exact text no claim depends on. -/
def renderValue : Value → String
  | Value.str s => s
  | Value.int n => toString n
  | Value.agentText s => s
  | Value.vnone => "None"

/-- Rendering of the additional-arguments mapping appended to the task
text; stands in for the Python str conversion of a dict. -/
def renderArgsDict (d : List (String × Value)) : String :=
  String.intercalate ", " (d.map fun kv => kv.1 ++ ": " ++ renderValue kv.2)

/-- Python dict update of one key: replace the value of an existing key,
else append the pair. -/
def updateEntry (state : List (String × Value)) (k : String) (v : Value) :
    List (String × Value) :=
  if (List.lookup k state).isSome then
    state.map (fun kv => if kv.1 = k then (k, v) else kv)
  else state ++ [(k, v)]

/-- Python dict.update over all entries of the additional arguments. -/
def updateAll (state : List (String × Value))
    (d : List (String × Value)) : List (String × Value) :=
  d.foldl (fun st kv => updateEntry st kv.1 kv.2) state

/-- The keyword arguments of run and their source defaults (agents.py,
lines 439 to 446): stream, reset and single_step all default to True and
additional_args to None. -/
structure RunConfig where
  stream : Bool := true
  reset : Bool := true
  single_step : Bool := true
  additional_args : Option (List (String × Value)) := none
  deriving Repr

/-- The three ways run can return (agents.py, lines 496 to 509): the single
step path returns the raw step result (the log and callback trace shown are
the ones left behind), the stream path returns a generator whose body has
not yet executed, and the direct path returns the outcome of direct_run. -/
inductive RunDispatch where
  | single (result : Option Value) (logs : List AgentStep)
      (callbackLog : List ActionStep)
  | streaming (logs : List AgentStep)
  | direct (o : RunOutcome)

/-- Embedding of MultiStepAgent.run (agents.py, lines 439 to 509).  The task
is extended and the state updated when additional arguments are given; the
log is reset to the system prompt step (or its first slot replaced) and the
task step appended; then the single-step path builds a stamped ActionStep
skeleton, runs the step once, and returns its raw result without appending
the skeleton, while the other paths hand over to the loop runners.  The raw
step result and the loop step outcomes are parameters, as the model and the
executor are external; the state update self.state.update of the additional
arguments is embedded by updateAll above, and its result is consumed only by
the steps, which are parameters here. -/
def run (task : String) (system_prompt : String) (prevLogs : List AgentStep)
    (stepOnceResult : Option Value)
    (stepf : Nat → StepOutcome) (maxIterations : Nat)
    (fallbackModel : Except String String) (cfg : RunConfig := {}) :
    RunDispatch :=
  let task1 :=
    match cfg.additional_args with
    | none => task
    | some d =>
        task ++
          "\nYou have been provided with these additional arguments, that you can access using the keys as variables in your python code:\n"
          ++ renderArgsDict d ++ "."
  let logs1 :=
    if cfg.reset then [AgentStep.system system_prompt]
    else
      match prevLogs with
      | [] => [AgentStep.system system_prompt]
      | _ :: rest => AgentStep.system system_prompt :: rest
  let logs2 := logs1 ++ [AgentStep.task task1]
  if cfg.single_step then RunDispatch.single stepOnceResult logs2 []
  else if cfg.stream then RunDispatch.streaming logs2
  else
    RunDispatch.direct
      (direct_run stepf maxIterations fallbackModel
        { logs := logs2, callbackLog := [], clock := 0 })

/-! ## The scope validator (tool_validation.py)

The validator fragment is embedded over a small Python AST: atomic
expressions (a Name in Load context or a literal constant), expressions
(a Name, a constant, a Call whose function part is a Name and whose
arguments are atomic, or a Dict/List/Set display with atomic elements), and
statements (an assignment to a Name target, an expression statement, an
import, or a from-import).  This covers every construct the settled claims
exercise while keeping the visitor structurally recursive. -/

/-- Atomic expression: a Name in Load context or a literal constant. -/
inductive PyAtom where
  | aname (id : String)
  | aconst
  deriving Repr, DecidableEq

/-- Expression of the modelled fragment.  A container display carries the
flag hasLoadCtx recording whether the node owns an expression-context child
node: ast.List and ast.Set have a ctx field holding an ast.Load node (which
ast.walk yields), while ast.Dict has none. -/
inductive PyExpr where
  | name (id : String)
  | const
  | call (fn : String) (args : List PyAtom)
  | container (hasLoadCtx : Bool) (elts : List PyAtom)
  deriving Repr, DecidableEq

/-- Statement of the modelled fragment. -/
inductive PyStmt where
  | assign (target : String) (value : PyExpr)
  | exprStmt (e : PyExpr)
  | importStmt (modName : String) (asname : Option String)
  | importFrom (modName : String) (names : List (String × Option String))
  deriving Repr, DecidableEq

/-- Environment data of the checker: the names of the builtins module and
the allow-listed base modules (BASE_BUILTIN_MODULES, declared in the absent
utils module; the checker only tests membership, so the list is a
parameter). -/
structure CheckerEnv where
  builtin_names : List String
  base_modules : List String
  deriving Repr

/-- Mutable fields of MethodChecker (tool_validation.py, lines 18 to 26).
The undefined_names set of the source is never read or written by any
visitor, so it is omitted. -/
structure MethodCheckerState where
  arg_names : List String
  class_attributes : List String
  imports : List String
  from_imports : List String
  assigned_names : List String
  errors : List String
  deriving Repr, DecidableEq

/-- Allowed-name test shared by visit_Name and visit_Call
(tool_validation.py, lines 90 to 99 and 104 to 113). -/
def allowedName (env : CheckerEnv) (st : MethodCheckerState) (id : String) :
    Bool :=
  decide (id ∈ env.builtin_names ∨ id ∈ env.base_modules ∨
    id ∈ st.arg_names ∨ id = "self" ∨ id ∈ st.class_attributes ∨
    id ∈ st.imports ∨ id ∈ st.from_imports ∨ id ∈ st.assigned_names)

/-- Message text of an undefined-name violation.  The source wraps the name
in single quote characters, elided here. -/
def undefined_msg (id : String) : String :=
  "Name " ++ id ++ " is undefined."

/-- Append one undefined-name violation to the error list. -/
def pushErr (st : MethodCheckerState) (id : String) : MethodCheckerState :=
  { st with errors := st.errors ++ [undefined_msg id] }

/-- Visit of an atomic expression: visit_Name flags a Load of a name
outside the allowed set (tool_validation.py, lines 88 to 100). -/
def visit_atom (env : CheckerEnv) (st : MethodCheckerState) :
    PyAtom → MethodCheckerState
  | PyAtom.aname id => if allowedName env st id then st else pushErr st id
  | PyAtom.aconst => st

/-- Visit of an expression.  A Call whose function name is outside the
allowed set is flagged by visit_Call, and then generic_visit re-dispatches
on the function Name node in Load context, so visit_Name flags the same
name a second time before the arguments are visited (tool_validation.py,
lines 102 to 115 together with lines 88 to 100). -/
def visit_expr (env : CheckerEnv) (st : MethodCheckerState) :
    PyExpr → MethodCheckerState
  | PyExpr.name id => if allowedName env st id then st else pushErr st id
  | PyExpr.const => st
  | PyExpr.call fn args =>
      let st1 := if allowedName env st fn then st else pushErr st fn
      let st2 := if allowedName env st1 fn then st1 else pushErr st1 fn
      args.foldl (visit_atom env) st2
  | PyExpr.container _ elts => elts.foldl (visit_atom env) st

/-- Visit of a statement.  visit_Assign records the target name before
generic_visit reaches the right-hand side; imports record the bound alias
(tool_validation.py, lines 36 to 51). -/
def visit_stmt (env : CheckerEnv) (st : MethodCheckerState) :
    PyStmt → MethodCheckerState
  | PyStmt.assign t v =>
      let st1 := { st with assigned_names := st.assigned_names ++ [t] }
      visit_expr env st1 v
  | PyStmt.exprStmt e => visit_expr env st e
  | PyStmt.importStmt n asname =>
      { st with imports := st.imports ++ [asname.getD n] }
  | PyStmt.importFrom _ names =>
      { st with from_imports :=
          st.from_imports ++ names.map (fun p => p.2.getD p.1) }

/-- Initial checker state for one method: the parameters and the recorded
class-level attributes are seeded, everything else is empty. -/
def initState (params classAttrs : List String) : MethodCheckerState :=
  { arg_names := params, class_attributes := classAttrs, imports := [],
    from_imports := [], assigned_names := [], errors := [] }

/-- Error list produced by running MethodChecker over one method body. -/
def check_method (env : CheckerEnv) (classAttrs params : List String)
    (body : List PyStmt) : List String :=
  (body.foldl (visit_stmt env) (initState params classAttrs)).errors

/-- Number of Name nodes in Load context carrying the given name inside an
atomic expression. -/
def atomLoads (n : String) : PyAtom → Nat
  | PyAtom.aname id => if id = n then 1 else 0
  | PyAtom.aconst => 0

/-- Number of Name nodes in Load context carrying the given name inside an
expression (the function part of a Call is itself such a Name node). -/
def exprLoads (n : String) : PyExpr → Nat
  | PyExpr.name id => if id = n then 1 else 0
  | PyExpr.const => 0
  | PyExpr.call fn args =>
      (if fn = n then 1 else 0) + (args.map (atomLoads n)).sum
  | PyExpr.container _ elts => (elts.map (atomLoads n)).sum

/-- Number of Call nodes whose function part carries the given name. -/
def exprCalls (n : String) : PyExpr → Nat
  | PyExpr.call fn _ => if fn = n then 1 else 0
  | _ => 0

/-- Load count of a statement. -/
def stmtLoads (n : String) : PyStmt → Nat
  | PyStmt.assign _ v => exprLoads n v
  | PyStmt.exprStmt e => exprLoads n e
  | _ => 0

/-- Call count of a statement. -/
def stmtCalls (n : String) : PyStmt → Nat
  | PyStmt.assign _ v => exprCalls n v
  | PyStmt.exprStmt e => exprCalls n e
  | _ => 0

/-- Load count of a method body. -/
def bodyLoads (n : String) (body : List PyStmt) : Nat :=
  (body.map (stmtLoads n)).sum

/-- Call count of a method body. -/
def bodyCalls (n : String) (body : List PyStmt) : Nat :=
  (body.map (stmtCalls n)).sum

/-- Whether a statement binds the given name (assignment target or import
alias), making it allowed from that point on. -/
def stmtIntroduces (n : String) : PyStmt → Bool
  | PyStmt.assign t _ => t == n
  | PyStmt.exprStmt _ => false
  | PyStmt.importStmt m asname => (asname.getD m) == n
  | PyStmt.importFrom _ names => names.any (fun p => (p.2.getD p.1) == n)

/-- Whether any statement of the body binds the given name. -/
def bodyIntroduces (n : String) (body : List PyStmt) : Bool :=
  body.any (stmtIntroduces n)

/-- Allowed-name test against the initial state of a method. -/
def allowedInit (env : CheckerEnv) (classAttrs params : List String)
    (n : String) : Bool :=
  allowedName env (initState params classAttrs) n

/-! ## Class-level validation (tool_validation.py, validate_tool_attributes) -/

/-- One item of a class body: a class-level assignment to a Name target or
a method definition. -/
inductive ClassBodyItem where
  | attrAssign (target : String) (value : PyExpr)
  | methodDef (nm : String) (params : List String) (body : List PyStmt)
  deriving Repr, DecidableEq

/-- Whether an atomic node counts as a literal for the class-attribute walk
(Str, Num, Constant, Dict, List, Set). -/
def atomNodeLiteral : PyAtom → Bool
  | PyAtom.aconst => true
  | PyAtom.aname _ => false

/-- Whether every node of ast.walk over the right-hand side is a literal
node (tool_validation.py, lines 224 to 229): a Name or Call node anywhere
makes the attribute complex.  A container node is itself in the literal
tuple and its elements are walked too, but ast.List and ast.Set also own an
ast.Load context child that ast.walk yields and that fails the isinstance
test, so any display carrying that ctx node is complex no matter its
elements; ast.Dict has no such child. -/
def exprWalkLiteral : PyExpr → Bool
  | PyExpr.const => true
  | PyExpr.name _ => false
  | PyExpr.call _ _ => false
  | PyExpr.container hasLoadCtx elts =>
      !hasLoadCtx && elts.all atomNodeLiteral

/-- Result of ClassLevelChecker: the recorded class attributes and the
attributes flagged as complex. -/
structure ClassLevelResult where
  class_attributes : List String
  complex_attributes : List String
  deriving Repr, DecidableEq

/-- Embedding of ClassLevelChecker (tool_validation.py, lines 199 to 229):
class-level assignments record their target, and targets of a non-literal
right-hand side are additionally flagged complex; assignments inside
methods are skipped. -/
def class_level_check (body : List ClassBodyItem) : ClassLevelResult :=
  body.foldl
    (fun acc item =>
      match item with
      | ClassBodyItem.methodDef _ _ _ => acc
      | ClassBodyItem.attrAssign t v =>
          let acc1 :=
            { acc with class_attributes := acc.class_attributes ++ [t] }
          if exprWalkLiteral v then acc1
          else
            { acc1 with
              complex_attributes := acc1.complex_attributes ++ [t] })
    { class_attributes := [], complex_attributes := [] }

/-- Outcome of validate_tool_attributes: the early TypeError raise, the
final ValueError raise, or a normal return. -/
inductive ValidationOutcome where
  | typeErr (msgs : List String)
  | valueErr (msgs : List String)
  | ok
  deriving Repr, DecidableEq

/-- Message of a constructor-parameter violation (tool_validation.py,
lines 156 to 159; quote and backtick decorations elided). -/
def init_params_msg (className : String) (ps : List String) : String :=
  "init method of " ++ className ++ " has unexpected parameters: " ++
    String.intercalate ", " ps ++
    ". Ensure it takes no arguments other than self, as values should be hardcoded."

/-- Message of the complex-attribute violation (tool_validation.py,
lines 183 to 186). -/
def complex_attrs_msg (attrs : List String) : String :=
  "Complex attributes found at the class level (use init instead): " ++
    String.intercalate ", " attrs

/-- Per-method violations of a class body, each prefixed with the method
name (tool_validation.py, lines 189 to 193). -/
def method_errors (env : CheckerEnv) (classAttrs : List String)
    (body : List ClassBodyItem) : List String :=
  (body.map (fun item =>
    match item with
    | ClassBodyItem.attrAssign _ _ => []
    | ClassBodyItem.methodDef nm params mbody =>
        (check_method env classAttrs params mbody).map
          (fun e => "- " ++ nm ++ ": " ++ e))).flatten

/-- Embedding of validate_tool_attributes (tool_validation.py, lines 123 to
196).  A constructor-parameter violation is appended to the error list and
then raised at once as a TypeError, before the class-level and method checks
run; otherwise the complex-attribute message and the per-method violations
are accumulated and raised together as a ValueError, and the function
returns normally exactly when that second list is empty. -/
def validate_tool_attributes (env : CheckerEnv) (className : String)
    (initNonSelfParams : List String) (body : List ClassBodyItem) :
    ValidationOutcome :=
  let errors0 : List String :=
    if initNonSelfParams.isEmpty then []
    else [init_params_msg className initNonSelfParams]
  if errors0.isEmpty then
    let clr := class_level_check body
    let errors1 : List String :=
      if clr.complex_attributes.isEmpty then []
      else [complex_attrs_msg clr.complex_attributes]
    let errors2 := errors1 ++ method_errors env clr.class_attributes body
    if errors2.isEmpty then ValidationOutcome.ok
    else ValidationOutcome.valueErr errors2
  else ValidationOutcome.typeErr errors0

/-! ## Remote executor result selection (e2b_executor.py, E2BExecutor) -/

/-- One execution result of the sandbox, exposing the typed content fields
the selection loop reads (e2b_executor.py, lines 157 to 179). -/
structure ExecResult where
  is_main_result : Bool
  jpeg : Option String := none
  png : Option String := none
  chart : Option String := none
  data : Option String := none
  html : Option String := none
  javascript : Option String := none
  json : Option String := none
  latex : Option String := none
  markdown : Option String := none
  pdf : Option String := none
  svg : Option String := none
  text : Option String := none
  deriving Repr, DecidableEq

/-- Output returned by the remote executor call: a decoded image (the
constructor argument is the base64 payload handed to the external decoder)
or the raw content of a non-image field. -/
inductive E2BOutput where
  | image (payload : String)
  | raw (content : String)
  deriving Repr, DecidableEq

/-- Selection over one main result: the two image encodings are checked
first, jpeg before png, then the remaining typed fields in the declared
order; the first present field wins. -/
def select_result (r : ExecResult) : Option E2BOutput :=
  match r.jpeg with
  | some v => some (E2BOutput.image v)
  | none =>
  match r.png with
  | some v => some (E2BOutput.image v)
  | none =>
  match r.chart with
  | some v => some (E2BOutput.raw v)
  | none =>
  match r.data with
  | some v => some (E2BOutput.raw v)
  | none =>
  match r.html with
  | some v => some (E2BOutput.raw v)
  | none =>
  match r.javascript with
  | some v => some (E2BOutput.raw v)
  | none =>
  match r.json with
  | some v => some (E2BOutput.raw v)
  | none =>
  match r.latex with
  | some v => some (E2BOutput.raw v)
  | none =>
  match r.markdown with
  | some v => some (E2BOutput.raw v)
  | none =>
  match r.pdf with
  | some v => some (E2BOutput.raw v)
  | none =>
  match r.svg with
  | some v => some (E2BOutput.raw v)
  | none =>
  match r.text with
  | some v => some (E2BOutput.raw v)
  | none => none

/-- The result loop of the call operator: results are scanned in order, the
first main result with a present typed field returns its selected output,
and a scan that finds none raises. -/
def select_loop : List ExecResult → Except String (Option E2BOutput)
  | [] => Except.error "No main result returned by executor!"
  | r :: rest =>
      if r.is_main_result then
        match select_result r with
        | some out => Except.ok (some out)
        | none => select_loop rest
      else select_loop rest

/-- Embedding of the output selection of the E2BExecutor call operator
(e2b_executor.py, lines 154 to 180): with no results at all the output is
None, otherwise the loop scans for a main result. -/
def e2b_call_output (results : List ExecResult) :
    Except String (Option E2BOutput) :=
  if results.isEmpty then Except.ok none else select_loop results

/-! ## Concrete scenarios used by the closed theorems and witnesses -/

/-- Agent state binding the key x to 42, as in the end-to-end scenario of
the spec. -/
def c1State : List (String × Value) := [("x", Value.int 42)]

/-- Structured model calls of the scenario: iteration 0 returns a non-final
tool call, iteration 1 returns the final-answer tool with the answer field
naming the state key x. -/
def c1ModelCalls : Nat → String × ToolArguments × String
  | 0 => ("search", ToolArguments.dict [("query", Value.str "q")], "call_1")
  | _ => ("final_answer", ToolArguments.dict [("answer", Value.str "x")], "call_2")

/-- Step function induced by the tool-calling step on the scenario calls. -/
def c1Stepf : Nat → StepOutcome :=
  fun i => StepOutcome.ret (toolcalling_step (c1ModelCalls i) c1State).returned

/-- Empty initial run state. -/
def emptySt : RunState := { logs := [], callbackLog := [], clock := 0 }

/-- Step function that never yields a final value. -/
def c3wStepf : Nat → StepOutcome := fun _ => StepOutcome.ret none

/-- Step function whose iteration 0 raises a ParsingError, whose iteration
1 raises an ExecutionError, and whose later steps are non-final: two
consecutive taxonomy errors in one run. -/
def c4wStepf : Nat → StepOutcome :=
  fun j => if j = 0 then StepOutcome.agentErr (AgentError.parsing "bad action")
           else if j = 1 then StepOutcome.agentErr (AgentError.execution "boom")
           else StepOutcome.ret none

/-- Tool returning exactly the arguments object it was dispatched with, to
record what the tool received. -/
def echoTool : ToolArguments → Value
  | ToolArguments.str s => Value.str s
  | ToolArguments.dict _ => Value.vnone

/-- Toolbox holding the echo tool. -/
def c5Tools : List (String × (ToolArguments → Value)) := [("echo", echoTool)]

/-- Checker environment with one builtin and no allow-listed modules. -/
def c6Env : CheckerEnv := { builtin_names := ["print"], base_modules := [] }

/-- Method body consisting of the single call foo(foo). -/
def c6wBody : List PyStmt :=
  [PyStmt.exprStmt (PyExpr.call "foo" [PyAtom.aname "foo"])]

/-- Class body with one method whose body loads one undefined name. -/
def c7Body : List ClassBodyItem :=
  [ClassBodyItem.methodDef "forward" ["self"] [PyStmt.exprStmt (PyExpr.name "foo")]]

/-- Class body with a clean constructor, one complex class attribute
(assigned from a Name) and one method loading an undefined name. -/
def c7Body2 : List ClassBodyItem :=
  [ClassBodyItem.attrAssign "endpoint" (PyExpr.name "BASE"),
   ClassBodyItem.methodDef "forward" ["self"]
     [PyStmt.exprStmt (PyExpr.name "foo")]]

/-- Main execution result exposing both an image encoding and a text
encoding. -/
def c8Result : ExecResult :=
  { is_main_result := true, png := some "iVBORbase64", text := some "hello" }

/-! ## Helper lemmas -/

/-- Lookup in the substituted mapping is lookup in the original mapping
followed by the value-level substitution: the loop preserves keys and
replaces values pointwise. -/
theorem lookup_substitute_eq (state : List (String × Value)) :
    ∀ (d : List (String × Value)) (k : String),
      List.lookup k (substitute_state_args state d)
        = (List.lookup k d).map (subst_value state) := by
  intro d
  induction d with
  | nil => intro k; simp [substitute_state_args]
  | cons kv rest ih =>
      intro k
      obtain ⟨k1, v1⟩ := kv
      by_cases hk : k = k1
      · subst hk
        simp [substitute_state_args, subst_entry, List.lookup_cons]
      · simp [substitute_state_args, subst_entry, List.lookup_cons,
          beq_false_of_ne hk]
        simpa [substitute_state_args] using ih k

/-- An argument entry holding a string bound in the state is overwritten
with the bound value by the substitution loop. -/
theorem lookup_substitute_bound (state : List (String × Value))
    (d : List (String × Value)) (k s : String) (b : Value)
    (h : List.lookup k d = some (Value.str s))
    (hs : List.lookup s state = some b) :
    List.lookup k (substitute_state_args state d) = some b := by
  simp [lookup_substitute_eq, h, subst_value, hs]

/-- An argument entry whose value is not a state-bound string is left
unchanged by the substitution loop. -/
theorem lookup_substitute_keep (state : List (String × Value))
    (d : List (String × Value)) (k : String) (v : Value)
    (h : List.lookup k d = some v)
    (hv : ∀ s, v = Value.str s → List.lookup s state = none) :
    List.lookup k (substitute_state_args state d) = some v := by
  rw [lookup_substitute_eq, h]
  cases v with
  | str s => simp [subst_value, hv s rfl]
  | int n => rfl
  | agentText s => rfl
  | vnone => rfl

/-! ## Claim theorems -/

/-- C1: the reserved final-answer tool call does not end the run.  In the
spec scenario (iteration 1 returns final_answer with the answer field x and
x bound to 42 in Agent state), ToolCallingAgent.step computes 42 into its
local final_answer variable, but its body contains no return statement, so
the step returns None and the run exhausts its iterations and returns the
fallback synthesis instead of 42. -/
theorem C1_final_answer_value_computed_but_never_returned :
    (toolcalling_step ("final_answer", ToolArguments.dict [("answer", Value.str "x")],
        "call_2") c1State).final_answer_local = some (AnswerVal.val (Value.int 42))
    ∧ (toolcalling_step ("final_answer", ToolArguments.dict [("answer", Value.str "x")],
        "call_2") c1State).returned = none
    ∧ (direct_run c1Stepf 2 (Except.ok "synthesized") emptySt).answerOf
        = some (Value.agentText "synthesized")
    ∧ some (Value.agentText "synthesized") ≠ some (Value.int 42) := by
  decide

/-- C2: the final-step heuristic of CodeAgent.step is dead.  The flag is
initialized to True, so a successful step whose code block contains no line
beginning with the final-answer name (here the block x = 2 + 2) is still
marked final and its output returned, where the claim requires the
not-yet-final sentinel None. -/
theorem C2_code_step_marks_every_success_final :
    (codeagent_step "x = 2 + 2" (Value.int 4) "call_2").returned
        = some (Value.int 4)
    ∧ (codeagent_step "x = 2 + 2" (Value.int 4) "call_2").is_final = true
    ∧ spec_final_answer_scan "x = 2 + 2" = false := by
  decide

/-- C9: run with its default keyword arguments takes the single-step path:
the log it leaves behind is exactly the system-prompt step followed by the
task step, no ActionStep is appended, no callback is delivered, and the raw
step result is returned, independently of the iteration bound. -/
theorem C9_default_run_is_single_step :
    ∀ (task sys : String) (prev : List AgentStep) (once : Option Value)
      (stepf : Nat → StepOutcome) (N : Nat) (fb : Except String String),
      run task sys prev once stepf N fb
        = RunDispatch.single once [AgentStep.system sys, AgentStep.task task] [] := by
  intro task sys prev once stepf N fb
  rfl

/-- C5 counterexample: a single positional string argument equal to a state
key is dispatched verbatim.  With x bound to 42 in state, the echo tool
called with the positional string x receives and returns the literal string
x, not the bound value, so the claim that the tool never receives the
literal key string is false. -/
theorem C5_counterexample_positional_string_not_substituted :
    execute_tool_call c5Tools [("x", Value.int 42)] "echo" (ToolArguments.str "x")
        = Except.ok (ToolArguments.str "x", Value.str "x")
    ∧ Value.str "x" ≠ Value.int 42 := by
  exact ⟨rfl, by decide⟩

/-- C6 counterexample: a single undefined call produces two undefined-name
violations, not exactly one per distinct offending name: visit_Call flags
the called name and generic_visit re-dispatches visit_Name on the same
node. -/
theorem C6_counterexample_single_undefined_call_flagged_twice :
    check_method c6Env [] [] [PyStmt.exprStmt (PyExpr.call "foo" [])]
        = [undefined_msg "foo", undefined_msg "foo"]
    ∧ (2 : Nat) ≠ 1 := by
  exact ⟨rfl, by decide⟩

/-- C7 counterexample: a constructor-parameter violation is raised at once
as a TypeError before the method checks run, so the raised failure does not
list the offending method even though its undefined-name violation exists. -/
theorem C7_counterexample_init_violation_raised_alone :
    validate_tool_attributes c6Env "SimpleTool" ["url"] c7Body
        = ValidationOutcome.typeErr [init_params_msg "SimpleTool" ["url"]]
    ∧ method_errors c6Env (class_level_check c7Body).class_attributes c7Body ≠ [] := by
  exact ⟨rfl, by decide⟩

/-- C5 amended: state-variable substitution happens exactly when the
arguments are a mapping: every mapping entry whose value is a string bound
in the Agent state is replaced by the bound value before the tool executes,
while a single positional string argument is dispatched to the tool
verbatim, even when it equals a state key. -/
theorem C5_amended_substitution_only_for_mappings :
    ∀ (tools : List (String × (ToolArguments → Value)))
      (state : List (String × Value)) (nm : String)
      (tool : ToolArguments → Value),
      List.lookup nm tools = some tool →
      (∀ (d : List (String × Value)) (k s : String) (b : Value),
          List.lookup k d = some (Value.str s) →
          List.lookup s state = some b →
          ∃ d2 obsv,
            execute_tool_call tools state nm (ToolArguments.dict d)
              = Except.ok (ToolArguments.dict d2, obsv)
            ∧ List.lookup k d2 = some b)
      ∧ (∀ s, execute_tool_call tools state nm (ToolArguments.str s)
            = Except.ok (ToolArguments.str s, tool (ToolArguments.str s))) := by
  intro tools state nm tool htool
  constructor
  · intro d k s b h hs
    refine ⟨substitute_state_args state d,
      tool (ToolArguments.dict (substitute_state_args state d)), ?_, ?_⟩
    · simp [execute_tool_call, htool]
    · exact lookup_substitute_bound state d k s b h hs
  · intro s
    simp [execute_tool_call, htool]

/-- C5 witness: with x bound to 42 and the mapping argument a equal to the
string x, dispatch replaces the entry with 42; and the positional string x
is dispatched verbatim to the echo tool. -/
theorem C5_amended_witness :
    (∃ d2 obsv,
        execute_tool_call c5Tools [("x", Value.int 42)] "echo"
            (ToolArguments.dict [("a", Value.str "x")])
          = Except.ok (ToolArguments.dict d2, obsv)
        ∧ List.lookup "a" d2 = some (Value.int 42))
    ∧ execute_tool_call c5Tools [("x", Value.int 42)] "echo"
          (ToolArguments.str "x")
        = Except.ok (ToolArguments.str "x", echoTool (ToolArguments.str "x")) := by
  have h := C5_amended_substitution_only_for_mappings c5Tools
    [("x", Value.int 42)] "echo" echoTool rfl
  exact ⟨h.1 [("a", Value.str "x")] "a" "x" (Value.int 42) rfl rfl, h.2 "x"⟩

/-- C10: the substitution loop rewrites the argument mapping itself before
dispatch, so the mapping the caller retains after execute_tool_call returns
(the in-place Python mutation is modelled by returning the post-call
mapping) holds the bound state value for every entry that named a state
key, and the original value for every other entry. -/
theorem C10_state_substitution_mutates_retained_arguments :
    ∀ (tools : List (String × (ToolArguments → Value)))
      (state : List (String × Value)) (nm : String)
      (tool : ToolArguments → Value) (d : List (String × Value)),
      List.lookup nm tools = some tool →
      ∃ d2 obsv,
        execute_tool_call tools state nm (ToolArguments.dict d)
          = Except.ok (ToolArguments.dict d2, obsv)
        ∧ (∀ k s b, List.lookup k d = some (Value.str s) →
             List.lookup s state = some b → List.lookup k d2 = some b)
        ∧ (∀ k v, List.lookup k d = some v →
             (∀ s, v = Value.str s → List.lookup s state = none) →
             List.lookup k d2 = some v) := by
  intro tools state nm tool d htool
  refine ⟨substitute_state_args state d,
    tool (ToolArguments.dict (substitute_state_args state d)), ?_, ?_, ?_⟩
  · simp [execute_tool_call, htool]
  · intro k s b h hs
    exact lookup_substitute_bound state d k s b h hs
  · intro k v h hv
    exact lookup_substitute_keep state d k v h hv

/-- C10 witness: dispatching the mapping with entries a bound to the string
x and n bound to 7, with x bound to 42 in state, leaves a mapping whose
entry a holds 42 and whose entry n still holds 7. -/
theorem C10_witness :
    ∃ d2 obsv,
      execute_tool_call c5Tools [("x", Value.int 42)] "echo"
          (ToolArguments.dict [("a", Value.str "x"), ("n", Value.int 7)])
        = Except.ok (ToolArguments.dict d2, obsv)
      ∧ (∀ k s b,
           List.lookup k [("a", Value.str "x"), ("n", Value.int 7)]
             = some (Value.str s) →
           List.lookup s [("x", Value.int 42)] = some b →
           List.lookup k d2 = some b)
      ∧ (∀ k v,
           List.lookup k [("a", Value.str "x"), ("n", Value.int 7)] = some v →
           (∀ s, v = Value.str s →
              List.lookup s [("x", Value.int 42)] = none) →
           List.lookup k d2 = some v) :=
  C10_state_substitution_mutates_retained_arguments c5Tools
    [("x", Value.int 42)] "echo" echoTool
    [("a", Value.str "x"), ("n", Value.int 7)] rfl

/-- The selection loop returns a decoded image whenever the first main
result carrying any typed content exposes an image encoding. -/
theorem select_loop_image :
    ∀ (pre : List ExecResult) (r : ExecResult) (post : List ExecResult),
      (∀ r2 ∈ pre, r2.is_main_result = false ∨ select_result r2 = none) →
      r.is_main_result = true →
      (r.jpeg.isSome ∨ r.png.isSome) →
      ∃ payload,
        select_loop (pre ++ r :: post)
          = Except.ok (some (E2BOutput.image payload)) := by
  intro pre
  induction pre with
  | nil =>
      intro r post _ hmain himg
      cases hj : r.jpeg with
      | some v =>
          exact ⟨v, by simp [select_loop, hmain, select_result, hj]⟩
      | none =>
          cases hp : r.png with
          | some v =>
              exact ⟨v, by simp [select_loop, hmain, select_result, hj, hp]⟩
          | none =>
              rcases himg with h | h
              · rw [hj] at h; simp at h
              · rw [hp] at h; simp at h
  | cons p pre2 ih =>
      intro r post hpre hmain himg
      have hrec := ih r post (fun r2 h2 => hpre r2 (List.mem_cons_of_mem p h2))
        hmain himg
      rcases hpre p (List.mem_cons_self p pre2) with hm | hn
      · simpa [select_loop, hm] using hrec
      · cases hmp : p.is_main_result
        · simpa [select_loop, hmp] using hrec
        · simpa [select_loop, hmp, hn] using hrec

/-- C8: the remote executor prefers image-typed content.  Whenever the main
result the scan settles on exposes an image encoding (even together with a
text encoding), the returned output is the decoded image, never the text;
and an execution that produced no results at all returns the output None. -/
theorem C8_image_beats_text_and_empty_is_none :
    (∀ (pre : List ExecResult) (r : ExecResult) (post : List ExecResult),
       (∀ r2 ∈ pre, r2.is_main_result = false ∨ select_result r2 = none) →
       r.is_main_result = true →
       (r.jpeg.isSome ∨ r.png.isSome) →
       r.text.isSome →
       (∃ payload, e2b_call_output (pre ++ r :: post)
           = Except.ok (some (E2BOutput.image payload)))
       ∧ (∀ s, e2b_call_output (pre ++ r :: post)
           ≠ Except.ok (some (E2BOutput.raw s))))
    ∧ e2b_call_output [] = Except.ok none := by
  constructor
  · intro pre r post hpre hmain himg _
    have hne : (pre ++ r :: post).isEmpty = false := by
      cases pre <;> rfl
    have hout : e2b_call_output (pre ++ r :: post)
        = select_loop (pre ++ r :: post) := by
      simp [e2b_call_output, hne]
    obtain ⟨payload, hsel⟩ := select_loop_image pre r post hpre hmain himg
    constructor
    · exact ⟨payload, by rw [hout, hsel]⟩
    · intro s heq
      rw [hout, hsel] at heq
      simp at heq
  · rfl

/-- C8 witness: a single main result exposing a png encoding and a text
encoding yields the decoded image, and the empty result list yields None. -/
theorem C8_witness :
    ((∃ payload, e2b_call_output ([] ++ c8Result :: [])
         = Except.ok (some (E2BOutput.image payload)))
     ∧ (∀ s, e2b_call_output ([] ++ c8Result :: [])
         ≠ Except.ok (some (E2BOutput.raw s))))
    ∧ e2b_call_output [] = Except.ok none :=
  ⟨C8_image_beats_text_and_empty_is_none.1 [] c8Result []
      (by intro r2 h2; simp at h2) rfl (Or.inr (by decide)) (by decide),
   C8_image_beats_text_and_empty_is_none.2⟩

/-- The log after one iteration is the previous log with the produced step
appended. -/
theorem runIteration_logs (o : StepOutcome) (i : Nat) (st : RunState) :
    (runIteration o i st).2.logs
      = st.logs ++ [AgentStep.action (runIteration o i st).1] := rfl

/-- The callback trace after one iteration is the previous trace with the
produced step appended: every callback receives the step. -/
theorem runIteration_callbackLog (o : StepOutcome) (i : Nat) (st : RunState) :
    (runIteration o i st).2.callbackLog
      = st.callbackLog ++ [(runIteration o i st).1] := rfl

/-- The produced step carries its iteration number. -/
theorem runIteration_iteration (o : StepOutcome) (i : Nat) (st : RunState) :
    (runIteration o i st).1.iteration = some i := rfl

/-- A step whose outcome is a taxonomy error records that error. -/
theorem runIteration_error_agentErr (e : AgentError) (i : Nat) (st : RunState) :
    (runIteration (StepOutcome.agentErr e) i st).1.error = some e := rfl

/-- Every produced step is stamped: start and end times are set and the
duration is their difference. -/
theorem runIteration_stamp (o : StepOutcome) (i : Nat) (st : RunState) :
    ∃ a b, (runIteration o i st).1.start_time = some a
      ∧ (runIteration o i st).1.end_time = some b
      ∧ (runIteration o i st).1.duration = some (b - a) :=
  ⟨st.clock, st.clock + 1, rfl, rfl, rfl⟩

/-- Loop unfolding: a not-final step recurses after the iteration. -/
theorem loop_succ_ret_none (stepf : Nat → StepOutcome) (f i : Nat)
    (st : RunState) (h : stepf i = StepOutcome.ret none) :
    directRunLoop stepf (f + 1) i st
      = directRunLoop stepf f (i + 1)
          (runIteration (StepOutcome.ret none) i st).2 := by
  simp [directRunLoop, h]

/-- Loop unfolding: a final step ends the loop with the answer. -/
theorem loop_succ_ret_some (stepf : Nat → StepOutcome) (f i : Nat)
    (st : RunState) (fv : Value) (h : stepf i = StepOutcome.ret (some fv)) :
    directRunLoop stepf (f + 1) i st
      = { finalAnswer := some fv, raised := none,
          state := (runIteration (StepOutcome.ret (some fv)) i st).2 } := by
  simp [directRunLoop, h]

/-- Loop unfolding: a taxonomy error is recorded and the loop recurses. -/
theorem loop_succ_agentErr (stepf : Nat → StepOutcome) (f i : Nat)
    (st : RunState) (e : AgentError) (h : stepf i = StepOutcome.agentErr e) :
    directRunLoop stepf (f + 1) i st
      = directRunLoop stepf f (i + 1)
          (runIteration (StepOutcome.agentErr e) i st).2 := by
  simp [directRunLoop, h]

/-- Loop unfolding: an exception outside the taxonomy still passes the
finally block (the step is appended and delivered) and aborts the loop. -/
theorem loop_succ_fatal (stepf : Nat → StepOutcome) (f i : Nat)
    (st : RunState) (msg : String) (h : stepf i = StepOutcome.fatal msg) :
    directRunLoop stepf (f + 1) i st
      = { finalAnswer := none, raised := some msg,
          state := (runIteration (StepOutcome.fatal msg) i st).2 } := by
  simp [directRunLoop, h]

/-- Appending an ActionStep increments the ActionStep count of a log. -/
theorem countActions_append_action (l : List AgentStep) (s : ActionStep) :
    countActions (l ++ [AgentStep.action s]) = countActions l + 1 := by
  simp [countActions, List.filter_append, AgentStep.isAction]

/-- A step function that never yields a final value (its outcomes are the
not-final sentinel or taxonomy errors) drives the loop through all its fuel,
producing one ActionStep and one callback delivery per iteration and ending
with no final answer and no propagating exception. -/
theorem directRunLoop_exhausts (stepf : Nat → StepOutcome)
    (hf : ∀ j, stepf j = StepOutcome.ret none
        ∨ ∃ e, stepf j = StepOutcome.agentErr e) :
    ∀ (fuel i : Nat) (st : RunState),
      ∃ st2, directRunLoop stepf fuel i st
          = { finalAnswer := none, raised := none, state := st2 }
        ∧ countActions st2.logs = countActions st.logs + fuel
        ∧ st2.callbackLog.length = st.callbackLog.length + fuel := by
  intro fuel
  induction fuel with
  | zero => intro i st; exact ⟨st, rfl, by simp, by simp⟩
  | succ f ih =>
      intro i st
      rcases hf i with h | ⟨e, h⟩
      · rw [loop_succ_ret_none stepf f i st h]
        obtain ⟨st2, heq, hc, hcb⟩ :=
          ih (i + 1) (runIteration (StepOutcome.ret none) i st).2
        refine ⟨st2, heq, ?_, ?_⟩
        · rw [hc, runIteration_logs, countActions_append_action]; omega
        · rw [hcb, runIteration_callbackLog, List.length_append]; simp; omega
      · rw [loop_succ_agentErr stepf f i st e h]
        obtain ⟨st2, heq, hc, hcb⟩ :=
          ih (i + 1) (runIteration (StepOutcome.agentErr e) i st).2
        refine ⟨st2, heq, ?_, ?_⟩
        · rw [hc, runIteration_logs, countActions_append_action]; omega
        · rw [hcb, runIteration_callbackLog, List.length_append]; simp; omega

/-- Log entries are never removed by the loop. -/
theorem loop_mem_logs (stepf : Nat → StepOutcome) :
    ∀ (fuel i : Nat) (st : RunState) (x : AgentStep),
      x ∈ st.logs → x ∈ (directRunLoop stepf fuel i st).state.logs := by
  intro fuel
  induction fuel with
  | zero => intro i st x hx; exact hx
  | succ f ih =>
      intro i st x hx
      cases h : stepf i with
      | ret v =>
          cases v with
          | none =>
              rw [loop_succ_ret_none stepf f i st h]
              refine ih _ _ x ?_
              rw [runIteration_logs]
              exact List.mem_append_left _ hx
          | some fv =>
              rw [loop_succ_ret_some stepf f i st fv h]
              show x ∈ (runIteration (StepOutcome.ret (some fv)) i st).2.logs
              rw [runIteration_logs]
              exact List.mem_append_left _ hx
      | agentErr e =>
          rw [loop_succ_agentErr stepf f i st e h]
          refine ih _ _ x ?_
          rw [runIteration_logs]
          exact List.mem_append_left _ hx
      | fatal msg =>
          rw [loop_succ_fatal stepf f i st msg h]
          show x ∈ (runIteration (StepOutcome.fatal msg) i st).2.logs
          rw [runIteration_logs]
          exact List.mem_append_left _ hx

/-- Callback deliveries are never removed by the loop. -/
theorem loop_mem_cb (stepf : Nat → StepOutcome) :
    ∀ (fuel i : Nat) (st : RunState) (x : ActionStep),
      x ∈ st.callbackLog
        → x ∈ (directRunLoop stepf fuel i st).state.callbackLog := by
  intro fuel
  induction fuel with
  | zero => intro i st x hx; exact hx
  | succ f ih =>
      intro i st x hx
      cases h : stepf i with
      | ret v =>
          cases v with
          | none =>
              rw [loop_succ_ret_none stepf f i st h]
              refine ih _ _ x ?_
              rw [runIteration_callbackLog]
              exact List.mem_append_left _ hx
          | some fv =>
              rw [loop_succ_ret_some stepf f i st fv h]
              show x ∈ (runIteration (StepOutcome.ret (some fv)) i st).2.callbackLog
              rw [runIteration_callbackLog]
              exact List.mem_append_left _ hx
      | agentErr e =>
          rw [loop_succ_agentErr stepf f i st e h]
          refine ih _ _ x ?_
          rw [runIteration_callbackLog]
          exact List.mem_append_left _ hx
      | fatal msg =>
          rw [loop_succ_fatal stepf f i st msg h]
          show x ∈ (runIteration (StepOutcome.fatal msg) i st).2.callbackLog
          rw [runIteration_callbackLog]
          exact List.mem_append_left _ hx

/-- With at least one unit of fuel the loop processes its starting
iteration: some logged ActionStep carries that iteration number, whatever
the step outcome is. -/
theorem loop_head_step (stepf : Nat → StepOutcome) (f i : Nat) (st : RunState) :
    ∃ s : ActionStep,
      AgentStep.action s ∈ (directRunLoop stepf (f + 1) i st).state.logs
      ∧ s.iteration = some i := by
  cases h : stepf i with
  | ret v =>
      cases v with
      | none =>
          refine ⟨(runIteration (StepOutcome.ret none) i st).1, ?_,
            runIteration_iteration _ i st⟩
          rw [loop_succ_ret_none stepf f i st h]
          apply loop_mem_logs
          rw [runIteration_logs]
          exact List.mem_append_right _ (by simp)
      | some fv =>
          refine ⟨(runIteration (StepOutcome.ret (some fv)) i st).1, ?_,
            runIteration_iteration _ i st⟩
          rw [loop_succ_ret_some stepf f i st fv h]
          show AgentStep.action _ ∈ (runIteration (StepOutcome.ret (some fv)) i st).2.logs
          rw [runIteration_logs]
          exact List.mem_append_right _ (by simp)
  | agentErr e =>
      refine ⟨(runIteration (StepOutcome.agentErr e) i st).1, ?_,
        runIteration_iteration _ i st⟩
      rw [loop_succ_agentErr stepf f i st e h]
      apply loop_mem_logs
      rw [runIteration_logs]
      exact List.mem_append_right _ (by simp)
  | fatal msg =>
      refine ⟨(runIteration (StepOutcome.fatal msg) i st).1, ?_,
        runIteration_iteration _ i st⟩
      rw [loop_succ_fatal stepf f i st msg h]
      show AgentStep.action _ ∈ (runIteration (StepOutcome.fatal msg) i st).2.logs
      rw [runIteration_logs]
      exact List.mem_append_right _ (by simp)

/-- If every iteration before i is non-final (either returning the
sentinel or itself raising a taxonomy error) and iteration i raises a
taxonomy error, the loop records that error on the ActionStep of iteration
i, stamps it, appends it to the log, delivers it to the callbacks, and
continues: when fuel remains, the next iteration is also processed. -/
theorem loop_reaches_agent_error (stepf : Nat → StepOutcome) :
    ∀ (i f k : Nat) (st : RunState) (e : AgentError),
      i < f →
      (∀ j, j < i → stepf (k + j) = StepOutcome.ret none
          ∨ ∃ e2, stepf (k + j) = StepOutcome.agentErr e2) →
      stepf (k + i) = StepOutcome.agentErr e →
      (∃ s : ActionStep,
          AgentStep.action s ∈ (directRunLoop stepf f k st).state.logs
          ∧ s ∈ (directRunLoop stepf f k st).state.callbackLog
          ∧ s.iteration = some (k + i) ∧ s.error = some e
          ∧ ∃ a b, s.start_time = some a ∧ s.end_time = some b
              ∧ s.duration = some (b - a))
      ∧ (i + 1 < f → ∃ s2 : ActionStep,
          AgentStep.action s2 ∈ (directRunLoop stepf f k st).state.logs
          ∧ s2.iteration = some (k + i + 1)) := by
  intro i
  induction i with
  | zero =>
      intro f k st e hif hbefore herr
      obtain ⟨f2, rfl⟩ : ∃ f2, f = f2 + 1 := ⟨f - 1, by omega⟩
      rw [Nat.add_zero] at herr
      rw [loop_succ_agentErr stepf f2 k st e herr]
      constructor
      · refine ⟨(runIteration (StepOutcome.agentErr e) k st).1, ?_, ?_, ?_,
          runIteration_error_agentErr e k st, runIteration_stamp _ k st⟩
        · apply loop_mem_logs
          rw [runIteration_logs]
          exact List.mem_append_right _ (by simp)
        · apply loop_mem_cb
          rw [runIteration_callbackLog]
          exact List.mem_append_right _ (by simp)
        · rw [runIteration_iteration]
          simp
      · intro h1f
        obtain ⟨f3, rfl⟩ : ∃ f3, f2 = f3 + 1 := ⟨f2 - 1, by omega⟩
        obtain ⟨s2, hs2mem, hs2it⟩ :=
          loop_head_step stepf f3 (k + 1) (runIteration (StepOutcome.agentErr e) k st).2
        exact ⟨s2, hs2mem, by rw [hs2it]⟩
  | succ i2 ih =>
      intro f k st e hif hbefore herr
      obtain ⟨f2, rfl⟩ : ∃ f2, f = f2 + 1 := ⟨f - 1, by omega⟩
      have hb2 : ∀ j, j < i2 → stepf (k + 1 + j) = StepOutcome.ret none
          ∨ ∃ e2, stepf (k + 1 + j) = StepOutcome.agentErr e2 := by
        intro j hj
        have h := hbefore (j + 1) (by omega)
        have harith : k + (j + 1) = k + 1 + j := by omega
        rw [harith] at h
        exact h
      have herr2 : stepf (k + 1 + i2) = StepOutcome.agentErr e := by
        have harith : k + (i2 + 1) = k + 1 + i2 := by omega
        rw [harith] at herr
        exact herr
      have harith1 : k + 1 + i2 = k + (i2 + 1) := by omega
      have h00 := hbefore 0 (by omega)
      rw [Nat.add_zero] at h00
      rcases h00 with h0 | ⟨e2, h0⟩
      · rw [loop_succ_ret_none stepf f2 k st h0]
        have H := ih f2 (k + 1) (runIteration (StepOutcome.ret none) k st).2 e
          (by omega) hb2 herr2
        constructor
        · obtain ⟨s, h1, h2, h3, h4, h5⟩ := H.1
          refine ⟨s, h1, h2, ?_, h4, h5⟩
          rw [h3, harith1]
        · intro hlt
          obtain ⟨s2, hm, hit⟩ := H.2 (by omega)
          refine ⟨s2, hm, ?_⟩
          rw [hit, harith1]
      · rw [loop_succ_agentErr stepf f2 k st e2 h0]
        have H := ih f2 (k + 1)
          (runIteration (StepOutcome.agentErr e2) k st).2 e (by omega) hb2 herr2
        constructor
        · obtain ⟨s, h1, h2, h3, h4, h5⟩ := H.1
          refine ⟨s, h1, h2, ?_, h4, h5⟩
          rw [h3, harith1]
        · intro hlt
          obtain ⟨s2, hm, hit⟩ := H.2 (by omega)
          refine ⟨s2, hm, ?_⟩
          rw [hit, harith1]

/-- If every iteration before i is non-final (sentinel or taxonomy error)
and iteration i raises an exception outside the taxonomy, the loop aborts
with that exception. -/
theorem loop_reaches_fatal (stepf : Nat → StepOutcome) :
    ∀ (i f k : Nat) (st : RunState) (msg : String),
      i < f →
      (∀ j, j < i → stepf (k + j) = StepOutcome.ret none
          ∨ ∃ e2, stepf (k + j) = StepOutcome.agentErr e2) →
      stepf (k + i) = StepOutcome.fatal msg →
      ∃ st2, directRunLoop stepf f k st
          = { finalAnswer := none, raised := some msg, state := st2 } := by
  intro i
  induction i with
  | zero =>
      intro f k st msg hif hbefore hfat
      obtain ⟨f2, rfl⟩ : ∃ f2, f = f2 + 1 := ⟨f - 1, by omega⟩
      rw [Nat.add_zero] at hfat
      exact ⟨_, loop_succ_fatal stepf f2 k st msg hfat⟩
  | succ i2 ih =>
      intro f k st msg hif hbefore hfat
      obtain ⟨f2, rfl⟩ : ∃ f2, f = f2 + 1 := ⟨f - 1, by omega⟩
      have hb2 : ∀ j, j < i2 → stepf (k + 1 + j) = StepOutcome.ret none
          ∨ ∃ e2, stepf (k + 1 + j) = StepOutcome.agentErr e2 := by
        intro j hj
        have h := hbefore (j + 1) (by omega)
        have harith : k + (j + 1) = k + 1 + j := by omega
        rw [harith] at h
        exact h
      have hfat2 : stepf (k + 1 + i2) = StepOutcome.fatal msg := by
        have harith : k + (i2 + 1) = k + 1 + i2 := by omega
        rw [harith] at hfat
        exact hfat
      have h00 := hbefore 0 (by omega)
      rw [Nat.add_zero] at h00
      rcases h00 with h0 | ⟨e2, h0⟩
      · rw [loop_succ_ret_none stepf f2 k st h0]
        exact ih f2 (k + 1) (runIteration (StepOutcome.ret none) k st).2 msg
          (by omega) hb2 hfat2
      · rw [loop_succ_agentErr stepf f2 k st e2 h0]
        exact ih f2 (k + 1)
          (runIteration (StepOutcome.agentErr e2) k st).2 msg
          (by omega) hb2 hfat2

/-- Log entries present after the loop survive into the run outcome: the
fallback path only appends. -/
theorem direct_run_mem_logs (stepf : Nat → StepOutcome) (N : Nat)
    (fb : Except String String) (st0 : RunState) (x : AgentStep)
    (hx : x ∈ (directRunLoop stepf N 0 st0).state.logs) :
    x ∈ (RunOutcome.stateOf (direct_run stepf N fb st0)).logs := by
  unfold direct_run
  cases hr : (directRunLoop stepf N 0 st0).raised with
  | some msg => simpa [RunOutcome.stateOf, hr] using hx
  | none =>
      cases hf : (directRunLoop stepf N 0 st0).finalAnswer with
      | some v => simpa [RunOutcome.stateOf, hr, hf] using hx
      | none =>
          simp [RunOutcome.stateOf, hr, hf]
          exact Or.inl hx

/-- Callback deliveries present after the loop survive into the run
outcome. -/
theorem direct_run_mem_cb (stepf : Nat → StepOutcome) (N : Nat)
    (fb : Except String String) (st0 : RunState) (x : ActionStep)
    (hx : x ∈ (directRunLoop stepf N 0 st0).state.callbackLog) :
    x ∈ (RunOutcome.stateOf (direct_run stepf N fb st0)).callbackLog := by
  unfold direct_run
  cases hr : (directRunLoop stepf N 0 st0).raised with
  | some msg => simpa [RunOutcome.stateOf, hr] using hx
  | none =>
      cases hf : (directRunLoop stepf N 0 st0).finalAnswer with
      | some v => simpa [RunOutcome.stateOf, hr, hf] using hx
      | none =>
          simp [RunOutcome.stateOf, hr, hf]
          exact Or.inl hx

/-- A loop aborted by a non-taxonomy exception makes the whole run raise
that exception. -/
theorem direct_run_of_loop_raised (stepf : Nat → StepOutcome) (N : Nat)
    (fb : Except String String) (st0 : RunState) (msg : String)
    (st2 : RunState)
    (h : directRunLoop stepf N 0 st0
        = { finalAnswer := none, raised := some msg, state := st2 }) :
    direct_run stepf N fb st0 = RunOutcome.raised msg st2 := by
  simp [direct_run, h]

/-- C3: a run whose step function never yields a final value terminates
after exactly N recorded ActionSteps, appends one further ActionStep
carrying a MaxIterationsError whose action output is the synthesized
answer, delivers every one of those N + 1 steps to the callbacks, and
returns the synthesized fallback answer without raising; when the fallback
model call itself fails, the synthesized answer is the literal error
string. -/
theorem C3_exhausted_run_returns_fallback :
    ∀ (stepf : Nat → StepOutcome) (N : Nat) (fb : Except String String)
      (st0 : RunState),
      (∀ j, stepf j = StepOutcome.ret none
          ∨ ∃ e, stepf j = StepOutcome.agentErr e) →
      ∃ st, direct_run stepf N fb st0
          = RunOutcome.done
              (handle_agent_output_types (Value.str (provide_final_answer fb))) st
        ∧ countActions st.logs = countActions st0.logs + N + 1
        ∧ st.callbackLog.length = st0.callbackLog.length + N + 1
        ∧ st.logs.getLast? = some (AgentStep.action
            { error := some (AgentError.maxIterations "Reached max iterations."),
              action_output := Value.str (provide_final_answer fb),
              duration := some 0 })
        ∧ ∀ e, fb = Except.error e →
            provide_final_answer fb
              = "Error in generating final LLM output:\n" ++ e := by
  intro stepf N fb st0 hf
  obtain ⟨st2, heq, hc, hcb⟩ := directRunLoop_exhausts stepf hf N 0 st0
  have hrun : direct_run stepf N fb st0 = RunOutcome.done
      (handle_agent_output_types (Value.str (provide_final_answer fb)))
      { logs := st2.logs ++ [AgentStep.action
          { error := some (AgentError.maxIterations "Reached max iterations."),
            action_output := Value.str (provide_final_answer fb),
            duration := some 0 }],
        callbackLog := st2.callbackLog ++
          [{ error := some (AgentError.maxIterations "Reached max iterations."),
             action_output := Value.str (provide_final_answer fb),
             duration := some 0 }],
        clock := st2.clock } := by
    simp [direct_run, heq]
  refine ⟨_, hrun, ?_, ?_, ?_, ?_⟩
  · rw [countActions_append_action, hc]
  · rw [List.length_append, hcb]
    rfl
  · exact List.getLast?_concat _
  · intro e he
    subst he
    rfl

/-- C3 witness: two non-final iterations with bound 2 produce exactly three
ActionSteps (two iterations plus the fallback step) and the synthesized
answer. -/
theorem C3_witness :
    ∃ st, direct_run c3wStepf 2 (Except.ok "synth") emptySt
        = RunOutcome.done
            (handle_agent_output_types
              (Value.str (provide_final_answer (Except.ok "synth")))) st
      ∧ countActions st.logs = countActions emptySt.logs + 2 + 1
      ∧ st.callbackLog.length = emptySt.callbackLog.length + 2 + 1
      ∧ st.logs.getLast? = some (AgentStep.action
          { error := some (AgentError.maxIterations "Reached max iterations."),
            action_output :=
              Value.str (provide_final_answer (Except.ok "synth")),
            duration := some 0 })
      ∧ ∀ e, (Except.ok "synth" : Except String String) = Except.error e →
          provide_final_answer (Except.ok "synth")
            = "Error in generating final LLM output:\n" ++ e :=
  C3_exhausted_run_returns_fallback c3wStepf 2 (Except.ok "synth") emptySt
    (fun _ => Or.inl rfl)

/-- C4: a taxonomy error raised at any iteration i the run reaches (its
earlier iterations returned the not-final sentinel or themselves recorded
taxonomy errors) is caught at the per-iteration boundary: the ActionStep of
iteration i records the error, is stamped, appended to the log and
delivered to the callbacks, and the loop continues with iteration i + 1
when the bound allows; an exception outside the taxonomy instead propagates
out of the run. -/
theorem C4_taxonomy_errors_recorded_nonfatal :
    ∀ (stepf : Nat → StepOutcome) (N : Nat) (fb : Except String String)
      (st0 : RunState) (i : Nat),
      i < N →
      (∀ j, j < i → stepf j = StepOutcome.ret none
          ∨ ∃ e2, stepf j = StepOutcome.agentErr e2) →
      (∀ e, stepf i = StepOutcome.agentErr e →
        (∃ s : ActionStep,
            AgentStep.action s
              ∈ (RunOutcome.stateOf (direct_run stepf N fb st0)).logs
            ∧ s ∈ (RunOutcome.stateOf (direct_run stepf N fb st0)).callbackLog
            ∧ s.iteration = some i ∧ s.error = some e
            ∧ ∃ a b, s.start_time = some a ∧ s.end_time = some b
                ∧ s.duration = some (b - a))
        ∧ (i + 1 < N → ∃ s2 : ActionStep,
            AgentStep.action s2
              ∈ (RunOutcome.stateOf (direct_run stepf N fb st0)).logs
            ∧ s2.iteration = some (i + 1)))
      ∧ (∀ msg, stepf i = StepOutcome.fatal msg →
          ∃ st, direct_run stepf N fb st0 = RunOutcome.raised msg st) := by
  intro stepf N fb st0 i hiN hbef
  constructor
  · intro e he
    have hb0 : ∀ j, j < i → stepf (0 + j) = StepOutcome.ret none
        ∨ ∃ e2, stepf (0 + j) = StepOutcome.agentErr e2 := by
      intro j hj
      rw [Nat.zero_add]
      exact hbef j hj
    have he0 : stepf (0 + i) = StepOutcome.agentErr e := by
      rw [Nat.zero_add]
      exact he
    have H := loop_reaches_agent_error stepf i N 0 st0 e hiN hb0 he0
    constructor
    · obtain ⟨s, h1, h2, h3, h4, h5⟩ := H.1
      refine ⟨s, direct_run_mem_logs stepf N fb st0 _ h1,
        direct_run_mem_cb stepf N fb st0 _ h2, ?_, h4, h5⟩
      rw [h3, Nat.zero_add]
    · intro hi1
      obtain ⟨s2, hm, hit⟩ := H.2 hi1
      refine ⟨s2, direct_run_mem_logs stepf N fb st0 _ hm, ?_⟩
      rw [hit, Nat.zero_add]
  · intro msg hm
    have hb0 : ∀ j, j < i → stepf (0 + j) = StepOutcome.ret none
        ∨ ∃ e2, stepf (0 + j) = StepOutcome.agentErr e2 := by
      intro j hj
      rw [Nat.zero_add]
      exact hbef j hj
    have hm0 : stepf (0 + i) = StepOutcome.fatal msg := by
      rw [Nat.zero_add]
      exact hm
    obtain ⟨st2, hloop⟩ := loop_reaches_fatal stepf i N 0 st0 msg hiN hb0 hm0
    exact ⟨st2, direct_run_of_loop_raised stepf N fb st0 msg st2 hloop⟩

/-- C4 witness: with a step function whose iteration 0 raises a
ParsingError and whose iteration 1 raises an ExecutionError under bound 3,
the run records the second error on the step of iteration 1, delivers it,
and processes iteration 2. -/
theorem C4_witness :
    (∀ e, c4wStepf 1 = StepOutcome.agentErr e →
      (∃ s : ActionStep,
          AgentStep.action s
            ∈ (RunOutcome.stateOf
                (direct_run c4wStepf 3 (Except.ok "a") emptySt)).logs
          ∧ s ∈ (RunOutcome.stateOf
                (direct_run c4wStepf 3 (Except.ok "a") emptySt)).callbackLog
          ∧ s.iteration = some 1 ∧ s.error = some e
          ∧ ∃ a b, s.start_time = some a ∧ s.end_time = some b
              ∧ s.duration = some (b - a))
      ∧ (1 + 1 < 3 → ∃ s2 : ActionStep,
          AgentStep.action s2
            ∈ (RunOutcome.stateOf
                (direct_run c4wStepf 3 (Except.ok "a") emptySt)).logs
          ∧ s2.iteration = some (1 + 1)))
    ∧ (∀ msg, c4wStepf 1 = StepOutcome.fatal msg →
        ∃ st, direct_run c4wStepf 3 (Except.ok "a") emptySt
            = RunOutcome.raised msg st) :=
  C4_taxonomy_errors_recorded_nonfatal c4wStepf 3 (Except.ok "a") emptySt 1
    (by omega)
    (by
      intro j hj
      have hj0 : j = 0 := by omega
      subst hj0
      exact Or.inr ⟨AgentError.parsing "bad action", rfl⟩)

/-- Messages of two undefined-name violations coincide only for the same
name. -/
theorem undefined_msg_inj {a b : String} (h : undefined_msg a = undefined_msg b) :
    a = b := by
  have hd := congrArg String.data h
  simp only [undefined_msg, String.data_append] at hd
  exact String.ext (List.append_cancel_left (List.append_cancel_right hd))

/-- Recording an error leaves the allowed-name test unchanged. -/
theorem allowedName_pushErr (env : CheckerEnv) (st : MethodCheckerState)
    (id n : String) :
    allowedName env (pushErr st id) n = allowedName env st n := rfl

/-- Visiting an atom leaves the allowed-name test unchanged. -/
theorem visit_atom_allowed (env : CheckerEnv) (st : MethodCheckerState)
    (a : PyAtom) (n : String) :
    allowedName env (visit_atom env st a) n = allowedName env st n := by
  cases a with
  | aconst => rfl
  | aname id =>
      simp only [visit_atom]
      split
      · rfl
      · rfl

/-- Visiting a list of atoms leaves the allowed-name test unchanged. -/
theorem visit_atoms_allowed (env : CheckerEnv) (n : String) :
    ∀ (args : List PyAtom) (st : MethodCheckerState),
      allowedName env (args.foldl (visit_atom env) st) n
        = allowedName env st n := by
  intro args
  induction args with
  | nil => intro st; rfl
  | cons a rest ih =>
      intro st
      simp only [List.foldl_cons]
      rw [ih, visit_atom_allowed]

/-- Visiting an expression leaves the allowed-name test unchanged. -/
theorem visit_expr_allowed (env : CheckerEnv) (st : MethodCheckerState)
    (e : PyExpr) (n : String) :
    allowedName env (visit_expr env st e) n = allowedName env st n := by
  cases e with
  | const => rfl
  | name id =>
      simp only [visit_expr]
      split
      · rfl
      · rfl
  | container b elts =>
      simp only [visit_expr]
      rw [visit_atoms_allowed]
  | call fn args =>
      simp only [visit_expr]
      rw [visit_atoms_allowed]
      by_cases h : allowedName env st fn
      · simp [h]
      · simp [h, allowedName_pushErr]

/-- Appending an assigned name other than n keeps n disallowed. -/
theorem allowed_false_append_assigned (env : CheckerEnv)
    (st : MethodCheckerState) (n t : String)
    (hA : allowedName env st n = false) (ht : t ≠ n) :
    allowedName env
      { st with assigned_names := st.assigned_names ++ [t] } n = false := by
  have ht2 : ¬(n = t) := fun h => ht h.symm
  simp only [allowedName, decide_eq_false_iff_not, List.mem_append,
    List.mem_singleton] at hA ⊢
  tauto

/-- Appending an import alias other than n keeps n disallowed. -/
theorem allowed_false_append_imports (env : CheckerEnv)
    (st : MethodCheckerState) (n a : String)
    (hA : allowedName env st n = false) (ha : a ≠ n) :
    allowedName env { st with imports := st.imports ++ [a] } n = false := by
  have ha2 : ¬(n = a) := fun h => ha h.symm
  simp only [allowedName, decide_eq_false_iff_not, List.mem_append,
    List.mem_singleton] at hA ⊢
  tauto

/-- Appending from-import aliases all distinct from n keeps n disallowed. -/
theorem allowed_false_append_from_imports (env : CheckerEnv)
    (st : MethodCheckerState) (n : String) (l : List String)
    (hA : allowedName env st n = false) (hl : ∀ a ∈ l, a ≠ n) :
    allowedName env
      { st with from_imports := st.from_imports ++ l } n = false := by
  have hl2 : ¬(n ∈ l) := fun hmem => hl n hmem rfl
  simp only [allowedName, decide_eq_false_iff_not, List.mem_append] at hA ⊢
  tauto

/-- A statement that does not bind n keeps n disallowed. -/
theorem visit_stmt_allowed_false (env : CheckerEnv) (st : MethodCheckerState)
    (s : PyStmt) (n : String) (hA : allowedName env st n = false)
    (hI : stmtIntroduces n s = false) :
    allowedName env (visit_stmt env st s) n = false := by
  cases s with
  | assign t v =>
      have ht : t ≠ n := by simpa [stmtIntroduces] using hI
      simp only [visit_stmt]
      rw [visit_expr_allowed]
      exact allowed_false_append_assigned env st n t hA ht
  | exprStmt e =>
      simp only [visit_stmt]
      rw [visit_expr_allowed]
      exact hA
  | importStmt m asname =>
      have ha : asname.getD m ≠ n := by simpa [stmtIntroduces] using hI
      simp only [visit_stmt]
      exact allowed_false_append_imports env st n (asname.getD m) hA ha
  | importFrom m names =>
      have hl : ∀ a ∈ names.map (fun p => p.2.getD p.1), a ≠ n := by
        intro a hm
        obtain ⟨p, hp, rfl⟩ := List.mem_map.1 hm
        have h2 := hI
        simp only [stmtIntroduces, List.any_eq_false, beq_iff_eq] at h2
        exact h2 p hp
      simp only [visit_stmt]
      exact allowed_false_append_from_imports env st n _ hA hl

/-- A statement never removes a name from the allowed set. -/
theorem visit_stmt_allowed_true (env : CheckerEnv) (st : MethodCheckerState)
    (s : PyStmt) (n : String) (hA : allowedName env st n = true) :
    allowedName env (visit_stmt env st s) n = true := by
  cases s with
  | assign t v =>
      simp only [visit_stmt]
      rw [visit_expr_allowed]
      simp only [allowedName, decide_eq_true_eq, List.mem_append] at hA ⊢
      tauto
  | exprStmt e =>
      simp only [visit_stmt]
      rw [visit_expr_allowed]
      exact hA
  | importStmt m asname =>
      simp only [visit_stmt]
      simp only [allowedName, decide_eq_true_eq, List.mem_append] at hA ⊢
      tauto
  | importFrom m names =>
      simp only [visit_stmt]
      simp only [allowedName, decide_eq_true_eq, List.mem_append] at hA ⊢
      tauto

/-- Appending an assigned name keeps every allowed name allowed. -/
theorem allowed_true_mono_assigned (env : CheckerEnv)
    (st : MethodCheckerState) (n t : String)
    (hA : allowedName env st n = true) :
    allowedName env
      { st with assigned_names := st.assigned_names ++ [t] } n = true := by
  simp only [allowedName, decide_eq_true_eq, List.mem_append] at hA ⊢
  tauto

/-- Count bookkeeping for one recorded violation. -/
theorem count_pushErr (st : MethodCheckerState) (id n : String) :
    ((pushErr st id).errors).count (undefined_msg n)
      = st.errors.count (undefined_msg n) + (if id = n then 1 else 0) := by
  by_cases h : id = n
  · subst h
    simp [pushErr, List.count_append]
  · have hne : undefined_msg id ≠ undefined_msg n :=
      fun hm => h (undefined_msg_inj hm)
    simp [pushErr, List.count_append, List.count_cons, hne, h]

/-- Violation count of one atom visit: one per disallowed Load. -/
theorem count_visit_atom (env : CheckerEnv) (st : MethodCheckerState)
    (a : PyAtom) (n : String) (hA : allowedName env st n = false) :
    ((visit_atom env st a).errors).count (undefined_msg n)
      = st.errors.count (undefined_msg n) + atomLoads n a := by
  cases a with
  | aconst => simp [visit_atom, atomLoads]
  | aname id =>
      cases h : allowedName env st id with
      | true =>
          have hne : id ≠ n := by
            intro he
            rw [he] at h
            rw [h] at hA
            cases hA
          simp [visit_atom, h, atomLoads, hne]
      | false =>
          simp only [visit_atom, h, Bool.false_eq_true, if_false]
          rw [count_pushErr]
          simp [atomLoads]

/-- Violation count of an atom-list visit. -/
theorem count_visit_atoms (env : CheckerEnv) (n : String) :
    ∀ (args : List PyAtom) (st : MethodCheckerState),
      allowedName env st n = false →
      ((args.foldl (visit_atom env) st).errors).count (undefined_msg n)
        = st.errors.count (undefined_msg n) + (args.map (atomLoads n)).sum := by
  intro args
  induction args with
  | nil => intro st _; simp
  | cons a rest ih =>
      intro st hA
      simp only [List.foldl_cons, List.map_cons, List.sum_cons]
      rw [ih (visit_atom env st a) (by rw [visit_atom_allowed]; exact hA)]
      rw [count_visit_atom env st a n hA]
      omega

/-- Violation count of one expression visit: one per disallowed Load plus
one more per disallowed call. -/
theorem count_visit_expr (env : CheckerEnv) (st : MethodCheckerState)
    (e : PyExpr) (n : String) (hA : allowedName env st n = false) :
    ((visit_expr env st e).errors).count (undefined_msg n)
      = st.errors.count (undefined_msg n) + exprLoads n e + exprCalls n e := by
  cases e with
  | const => simp [visit_expr, exprLoads, exprCalls]
  | name id =>
      cases h : allowedName env st id with
      | true =>
          have hne : id ≠ n := by
            intro he
            rw [he] at h
            rw [h] at hA
            cases hA
          simp [visit_expr, h, exprLoads, exprCalls, hne]
      | false =>
          simp only [visit_expr, h, Bool.false_eq_true, if_false]
          rw [count_pushErr]
          simp [exprLoads, exprCalls]
  | container b elts =>
      simp only [visit_expr]
      rw [count_visit_atoms env n elts st hA]
      simp [exprLoads, exprCalls]
  | call fn args =>
      cases h : allowedName env st fn with
      | true =>
          have hne : fn ≠ n := by
            intro he
            rw [he] at h
            rw [h] at hA
            cases hA
          simp only [visit_expr, h, if_true]
          rw [count_visit_atoms env n args st hA]
          simp [exprLoads, exprCalls, hne]
      | false =>
          simp only [visit_expr, h, Bool.false_eq_true, if_false,
            allowedName_pushErr]
          rw [count_visit_atoms env n args (pushErr (pushErr st fn) fn)
            (by simp [allowedName_pushErr, hA])]
          rw [count_pushErr, count_pushErr]
          simp only [exprLoads, exprCalls]
          by_cases hfn : fn = n
          · simp [hfn]
            omega
          · simp [hfn]

/-- Violation count of one statement visit. -/
theorem count_visit_stmt (env : CheckerEnv) (st : MethodCheckerState)
    (s : PyStmt) (n : String) (hA : allowedName env st n = false)
    (hI : stmtIntroduces n s = false) :
    ((visit_stmt env st s).errors).count (undefined_msg n)
      = st.errors.count (undefined_msg n) + stmtLoads n s + stmtCalls n s := by
  cases s with
  | assign t v =>
      have ht : t ≠ n := by simpa [stmtIntroduces] using hI
      simp only [visit_stmt]
      rw [count_visit_expr env _ v n (allowed_false_append_assigned env st n t hA ht)]
      rfl
  | exprStmt e =>
      simp only [visit_stmt]
      rw [count_visit_expr env st e n hA]
      rfl
  | importStmt m a => simp [visit_stmt, stmtLoads, stmtCalls]
  | importFrom m names => simp [visit_stmt, stmtLoads, stmtCalls]

/-- Violation count of a whole body for a name that is disallowed at entry
and never bound inside the body. -/
theorem count_check_body (env : CheckerEnv) (n : String) :
    ∀ (body : List PyStmt) (st : MethodCheckerState),
      allowedName env st n = false → bodyIntroduces n body = false →
      ((body.foldl (visit_stmt env) st).errors).count (undefined_msg n)
        = st.errors.count (undefined_msg n)
            + bodyLoads n body + bodyCalls n body := by
  intro body
  induction body with
  | nil => intro st _ _; simp [bodyLoads, bodyCalls]
  | cons s rest ih =>
      intro st hA hI
      have hIs : stmtIntroduces n s = false ∧ bodyIntroduces n rest = false := by
        simpa [bodyIntroduces, List.any_cons] using hI
      simp only [List.foldl_cons]
      rw [ih (visit_stmt env st s)
        (visit_stmt_allowed_false env st s n hA hIs.1) hIs.2]
      rw [count_visit_stmt env st s n hA hIs.1]
      simp only [bodyLoads, bodyCalls, List.map_cons, List.sum_cons]
      omega

/-- An atom whose loads are all allowed records no violation. -/
theorem errors_visit_atom_clean (env : CheckerEnv) (st : MethodCheckerState)
    (a : PyAtom)
    (h : ∀ m, 0 < atomLoads m a → allowedName env st m = true) :
    (visit_atom env st a).errors = st.errors := by
  cases a with
  | aconst => rfl
  | aname id =>
      have hid := h id (by simp [atomLoads])
      simp [visit_atom, hid]

/-- An atom list whose loads are all allowed records no violation. -/
theorem errors_visit_atoms_clean (env : CheckerEnv) :
    ∀ (args : List PyAtom) (st : MethodCheckerState),
      (∀ m, 0 < (args.map (atomLoads m)).sum → allowedName env st m = true) →
      (args.foldl (visit_atom env) st).errors = st.errors := by
  intro args
  induction args with
  | nil => intro st _; rfl
  | cons a rest ih =>
      intro st h
      have hhead : ∀ m, 0 < atomLoads m a → allowedName env st m = true := by
        intro m hm
        refine h m ?_
        simp only [List.map_cons, List.sum_cons]
        omega
      have htail : ∀ m, 0 < (rest.map (atomLoads m)).sum →
          allowedName env (visit_atom env st a) m = true := by
        intro m hm
        rw [visit_atom_allowed]
        refine h m ?_
        simp only [List.map_cons, List.sum_cons]
        omega
      simp only [List.foldl_cons]
      rw [ih (visit_atom env st a) htail, errors_visit_atom_clean env st a hhead]

/-- An expression whose loaded and called names are all allowed records no
violation. -/
theorem errors_visit_expr_clean (env : CheckerEnv) (st : MethodCheckerState)
    (e : PyExpr)
    (h : ∀ m, 0 < exprLoads m e → allowedName env st m = true) :
    (visit_expr env st e).errors = st.errors := by
  cases e with
  | const => rfl
  | name id =>
      have hid := h id (by simp [exprLoads])
      simp [visit_expr, hid]
  | container b elts =>
      simp only [visit_expr]
      refine errors_visit_atoms_clean env elts st ?_
      intro m hm
      exact h m (by simpa [exprLoads] using hm)
  | call fn args =>
      have hfn : allowedName env st fn = true := h fn (by simp [exprLoads])
      simp only [visit_expr, hfn, if_true]
      refine errors_visit_atoms_clean env args st ?_
      intro m hm
      refine h m ?_
      simp only [exprLoads]
      omega

/-- A statement whose loaded and called names are all allowed records no
violation. -/
theorem errors_visit_stmt_clean (env : CheckerEnv) (st : MethodCheckerState)
    (s : PyStmt)
    (h : ∀ m, 0 < stmtLoads m s → allowedName env st m = true) :
    (visit_stmt env st s).errors = st.errors := by
  cases s with
  | assign t v =>
      simp only [visit_stmt]
      refine errors_visit_expr_clean env _ v ?_
      intro m hm
      exact allowed_true_mono_assigned env st m t
        (h m (by simpa [stmtLoads] using hm))
  | exprStmt e =>
      simp only [visit_stmt]
      exact errors_visit_expr_clean env st e
        (fun m hm => h m (by simpa [stmtLoads] using hm))
  | importStmt m a => rfl
  | importFrom m names => rfl

/-- A body whose loaded and called names are all allowed records no
violation. -/
theorem errors_check_body_clean (env : CheckerEnv) :
    ∀ (body : List PyStmt) (st : MethodCheckerState),
      (∀ m, 0 < bodyLoads m body → allowedName env st m = true) →
      (body.foldl (visit_stmt env) st).errors = st.errors := by
  intro body
  induction body with
  | nil => intro st _; rfl
  | cons s rest ih =>
      intro st h
      have hhead : ∀ m, 0 < stmtLoads m s → allowedName env st m = true := by
        intro m hm
        refine h m ?_
        simp only [bodyLoads, List.map_cons, List.sum_cons]
        omega
      have htail : ∀ m, 0 < bodyLoads m rest →
          allowedName env (visit_stmt env st s) m = true := by
        intro m hm
        refine visit_stmt_allowed_true env st s m ?_
        refine h m ?_
        simp only [bodyLoads, List.map_cons, List.sum_cons] at hm ⊢
        omega
      simp only [List.foldl_cons]
      rw [ih (visit_stmt env st s) htail, errors_visit_stmt_clean env st s hhead]

/-- C6 amended: the Scope Validator flags one undefined violation per Load
occurrence of an offending name, plus one additional violation per call of
it (so a single undefined call yields two violations), rather than exactly
one per distinct name; and a method whose every loaded and called name is
in the allowed set produces no violation. -/
theorem C6_amended_per_occurrence_and_doubled_calls :
    (∀ (env : CheckerEnv) (classAttrs params : List String)
       (body : List PyStmt) (n : String),
       allowedInit env classAttrs params n = false →
       bodyIntroduces n body = false →
       (check_method env classAttrs params body).count (undefined_msg n)
         = bodyLoads n body + bodyCalls n body)
    ∧ (∀ (env : CheckerEnv) (classAttrs params : List String)
       (body : List PyStmt),
       (∀ m, 0 < bodyLoads m body →
          allowedInit env classAttrs params m = true) →
       check_method env classAttrs params body = []) := by
  constructor
  · intro env cA ps body n hA hI
    have h := count_check_body env n body (initState ps cA) hA hI
    simpa [check_method, initState] using h
  · intro env cA ps body h
    have h2 := errors_check_body_clean env body (initState ps cA) h
    simpa [check_method, initState] using h2

/-- C6 witness: for the body foo(foo) with foo undefined, the checker
reports the violation three times: twice for the call (call check plus name
check) and once for the argument load. -/
theorem C6_amended_witness :
    (check_method c6Env [] [] c6wBody).count (undefined_msg "foo")
        = bodyLoads "foo" c6wBody + bodyCalls "foo" c6wBody
    ∧ check_method c6Env [] [] [PyStmt.exprStmt (PyExpr.name "print")] = [] :=
  ⟨C6_amended_per_occurrence_and_doubled_calls.1 c6Env [] [] c6wBody "foo"
      (by decide) (by decide),
   C6_amended_per_occurrence_and_doubled_calls.2 c6Env [] []
      [PyStmt.exprStmt (PyExpr.name "print")]
      (by
        intro m hm
        have hm2 : m = "print" := by
          by_cases h : "print" = m
          · exact h.symm
          · simp [bodyLoads, stmtLoads, exprLoads, h] at hm
        subst hm2
        decide)⟩

/-- C7 amended: a constructor-parameter violation is raised immediately on
its own as the type-error failure, before the class-attribute and method
checks run; when the constructor is clean, the complex-attribute and
per-method violations are accumulated and raised together as one
value-error failure carrying the complex-attribute message and every
per-method violation; and the validator returns normally exactly when no
violation exists at all. -/
theorem C7_amended_init_raises_early :
    ∀ (env : CheckerEnv) (className : String) (initPs : List String)
      (body : List ClassBodyItem),
      (initPs ≠ [] → validate_tool_attributes env className initPs body
          = ValidationOutcome.typeErr [init_params_msg className initPs])
      ∧ (validate_tool_attributes env className initPs body
            = ValidationOutcome.ok
          ↔ initPs = []
            ∧ (class_level_check body).complex_attributes = []
            ∧ method_errors env (class_level_check body).class_attributes body
                = [])
      ∧ (initPs = [] →
          ((class_level_check body).complex_attributes ≠ []
            ∨ method_errors env (class_level_check body).class_attributes body
                ≠ []) →
          ∃ msgs, validate_tool_attributes env className initPs body
              = ValidationOutcome.valueErr msgs
            ∧ ((class_level_check body).complex_attributes ≠ [] →
                complex_attrs_msg (class_level_check body).complex_attributes
                  ∈ msgs)
            ∧ (∀ e ∈ method_errors env
                  (class_level_check body).class_attributes body,
                e ∈ msgs)) := by
  intro env cn initPs body
  refine ⟨?_, ?_, ?_⟩
  · intro hne
    have h0 : initPs.isEmpty = false := by
      simpa using hne
    simp [validate_tool_attributes, h0]
  · cases hps : initPs with
    | cons a l =>
        constructor
        · intro h
          rw [show validate_tool_attributes env cn (a :: l) body
              = ValidationOutcome.typeErr [init_params_msg cn (a :: l)] from by
            simp [validate_tool_attributes]] at h
          cases h
        · rintro ⟨h1, -, -⟩
          cases h1
    | nil =>
        simp only [validate_tool_attributes, List.isEmpty_nil, if_true]
        by_cases hc : (class_level_check body).complex_attributes = []
        · simp only [hc, List.isEmpty_nil, if_true, List.nil_append]
          by_cases hm : method_errors env
              (class_level_check body).class_attributes body = []
          · simp [hm]
          · have hm2 : (method_errors env
                (class_level_check body).class_attributes body).isEmpty
                  = false := by
              simpa using hm
            simp [hm2, hm]
        · have hc2 : ((class_level_check body).complex_attributes).isEmpty
              = false := by
            simpa using hc
          simp [hc2, hc]
  · rintro rfl hvi
    by_cases hc : (class_level_check body).complex_attributes = []
    · have hm : method_errors env
          (class_level_check body).class_attributes body ≠ [] := by
        rcases hvi with h | h
        · exact absurd hc h
        · exact h
      have hm2 : (method_errors env
          (class_level_check body).class_attributes body).isEmpty = false := by
        simpa using hm
      have hc2 : ((class_level_check body).complex_attributes).isEmpty
          = true := by
        simpa using hc
      refine ⟨method_errors env
          (class_level_check body).class_attributes body, ?_, ?_, ?_⟩
      · simp [validate_tool_attributes, hc2, hm2]
      · intro h
        exact absurd hc h
      · intro e he
        exact he
    · have hc2 : ((class_level_check body).complex_attributes).isEmpty
          = false := by
        simpa using hc
      refine ⟨complex_attrs_msg (class_level_check body).complex_attributes
          :: method_errors env (class_level_check body).class_attributes body,
          ?_, ?_, ?_⟩
      · simp [validate_tool_attributes, hc2]
      · intro _
        exact List.mem_cons_self _ _
      · intro e he
        exact List.mem_cons_of_mem _ he

/-- C7 witness: a class with the constructor parameter url fails as the
early type error naming only that parameter; a fully clean class validates
normally; and a clean-constructor class with a complex attribute and an
undefined method name fails as one value error carrying both the
complex-attribute message and the method violation. -/
theorem C7_amended_witness :
    validate_tool_attributes c6Env "SimpleTool" ["url"] c7Body
        = ValidationOutcome.typeErr [init_params_msg "SimpleTool" ["url"]]
    ∧ (validate_tool_attributes c6Env "CleanTool" [] [] = ValidationOutcome.ok
        ↔ ([] : List String) = []
          ∧ (class_level_check ([] : List ClassBodyItem)).complex_attributes = []
          ∧ method_errors c6Env
              (class_level_check ([] : List ClassBodyItem)).class_attributes []
                = [])
    ∧ (∃ msgs, validate_tool_attributes c6Env "MixedTool" [] c7Body2
          = ValidationOutcome.valueErr msgs
        ∧ ((class_level_check c7Body2).complex_attributes ≠ [] →
            complex_attrs_msg (class_level_check c7Body2).complex_attributes
              ∈ msgs)
        ∧ (∀ e ∈ method_errors c6Env
              (class_level_check c7Body2).class_attributes c7Body2,
            e ∈ msgs)) :=
  ⟨(C7_amended_init_raises_early c6Env "SimpleTool" ["url"] c7Body).1
      (by decide),
   (C7_amended_init_raises_early c6Env "CleanTool" [] []).2.1,
   (C7_amended_init_raises_early c6Env "MixedTool" [] c7Body2).2.2 rfl
      (Or.inl (by decide))⟩

end NEA
